import Mathlib

set_option maxHeartbeats 1000000
set_option maxRecDepth 4000

/-!
Verification development for the kanti intercepting HTTP/HTTPS proxy
(Go backend: scope matching, header sanitization, capture pipeline,
capture store, event batching, leaf-certificate cache, control plane).
Go strings are embedded as lists of characters, byte buffers as lists of
naturals, header maps as functions from canonical header name to optional
value, and each Go function is translated into an executable Lean
definition of the same name.
-/

/-- Go strings, embedded as lists of characters. -/
abbrev Str := List Char

/-- Converts a Lean string literal to the embedding type. -/
def str (s : String) : Str := s.data

/-- Embeds strings.HasPrefix from the Go standard library. -/
def goHasPrefix (s p : Str) : Bool := p.isPrefixOf s

/-- Embeds strings.HasSuffix from the Go standard library. -/
def goHasSuffix (s suffix : Str) : Bool := suffix.isSuffixOf s

/-- Embeds strings.Contains from the Go standard library: sub occurs as a
contiguous substring of s. -/
def goContains (s sub : Str) : Bool := s.tails.any (fun t => sub.isPrefixOf t)

/-- Embeds strings.ToLower from the Go standard library (ASCII use). -/
def goToLower (s : Str) : Str := s.map Char.toLower

/-- Embeds models.ProxyConfig: the fields the proxy package reads. -/
structure ProxyConfig where
  port : Nat := 8080
  sslInterception : Bool := true
  customHeaders : List (Str × Str) := []
  saveOnlyInScope : Bool := false
  inScope : List Str := []
  outOfScope : List Str := []
deriving DecidableEq

/-- Embeds matchesPattern: exact match, else a `*.`-wildcard pattern with
domain = pattern[2:] matches when strings.HasSuffix(host, domain) or
host == domain. -/
def matchesPattern (host pattern : Str) : Bool :=
  if pattern == host then true
  else if goHasPrefix pattern ['*', '.'] then
    goHasSuffix host (pattern.drop 2) || host == pattern.drop 2
  else false

/-- Embeds shouldSave: with SaveOnlyInScope false everything is saved;
otherwise OutOfScope patterns are evaluated first (any match drops), then
InScope patterns (any match saves), else drop. -/
def shouldSave (config : ProxyConfig) (host : Str) : Bool :=
  if !config.saveOnlyInScope then true
  else if config.outOfScope.any (fun pattern => matchesPattern host pattern) then false
  else if config.inScope.any (fun pattern => matchesPattern host pattern) then true
  else false

/-- Modelled from the spec (for comparison with matchesPattern): the spec
says a pattern `*.suffix` matches a host whose literal equals suffix or
ends with the string `.suffix`. -/
def specWildcardMatches (host suffix : Str) : Bool :=
  host == suffix || goHasSuffix host ('.' :: suffix)

example : str "abc" = ['a', 'b', 'c'] := by decide

example : matchesPattern (str "api.example.com") (str "*.example.com") = true := by decide

example : matchesPattern (str "notexample.com") (str "*.example.com") = true := by decide

example : specWildcardMatches (str "notexample.com") (str "example.com") = false := by decide

/-- Embeds net/http.Header restricted to how the source uses it: a map from
canonical header name to an optional value. -/
def Header := Str → Option Str

/-- Embeds Header.Del. -/
def hdrDel (h : Header) (k : Str) : Header := fun x => if x == k then none else h x

/-- Embeds Header.Set. -/
def hdrSet (h : Header) (k v : Str) : Header := fun x => if x == k then some v else h x

/-- Embeds Header.Get, which yields the empty string when the name is absent. -/
def hdrGet (h : Header) (k : Str) : Str := (h k).getD []

/-- Embeds the proxyHeaders list that sanitizeHeaders deletes. -/
def proxyHeaders : List Str :=
  [str "X-Forwarded-For", str "X-Forwarded-Host", str "X-Forwarded-Proto",
   str "X-Real-IP", str "Via", str "Forwarded", str "Proxy-Connection"]

/-- Embeds sanitizeHeaders: delete each name in proxyHeaders, then fill in
browser-like defaults for User-Agent, Accept, Accept-Language and
Accept-Encoding when they are absent. -/
def sanitizeHeaders (h : Header) : Header :=
  let h1 := proxyHeaders.foldl (fun acc k => hdrDel acc k) h
  let h2 := if hdrGet h1 (str "User-Agent") == [] then
      hdrSet h1 (str "User-Agent")
        (str "Mozilla/5.0 (Windows NT 10.0; Win64; x64) AppleWebKit/537.36 (KHTML, like Gecko) Chrome/131.0.0.0 Safari/537.36")
    else h1
  let h3 := if hdrGet h2 (str "Accept") == [] then
      hdrSet h2 (str "Accept")
        (str "text/html,application/xhtml+xml,application/xml;q=0.9,image/webp,*/*;q=0.8")
    else h2
  let h4 := if hdrGet h3 (str "Accept-Language") == [] then
      hdrSet h3 (str "Accept-Language") (str "en-US,en;q=0.9")
    else h3
  if hdrGet h4 (str "Accept-Encoding") == [] then
    hdrSet h4 (str "Accept-Encoding") (str "gzip, deflate, br")
  else h4

/-- Embeds addCustomHeaders: set every configured custom header pair. -/
def addCustomHeaders (config : ProxyConfig) (h : Header) : Header :=
  config.customHeaders.foldl (fun acc kv => hdrSet acc kv.1 kv.2) h

/-- Embeds the MaxBodySize constant (10 MiB). -/
def MaxBodySize : Nat := 10 * 1024 * 1024

/-- Embeds the MaxCachedRequests constant. -/
def MaxCachedRequests : Nat := 1000

/-- Embeds the BatchSize constant. -/
def BatchSize : Nat := 50

/-- Embeds models.RequestDetails with the fields the proxy package uses;
each field defaults to its Go zero value, matching struct literals that
leave it out. -/
structure RequestDetails where
  id : Nat := 0
  host : Str := []
  method : Str := []
  path : Str := []
  query : Str := []
  headers : Header := fun _ => none
  timestamp : Nat := 0
  protocol : Str := []
  body : List Nat := []
  responseLength : Nat := 0
  status : Nat := 0
  responseTime : Nat := 0
  responseHeaders : Header := fun _ => none
  responseBody : List Nat := []

/-- Embeds the parts of net/http.Request that the capture pipeline reads;
the body is none when the request carries none. -/
structure Request where
  host : Str := []
  method : Str := []
  path : Str := []
  query : Str := []
  headers : Header := fun _ => none
  tls : Bool := false
  body : Option (List Nat) := none

/-- Embeds the parts of net/http.Response that the capture pipeline reads. -/
structure Response where
  statusCode : Nat := 0
  headers : Header := fun _ => none
  body : Option (List Nat) := none

/-- Embeds the textTypes list of shouldCaptureBody. -/
def textTypes : List Str :=
  [str "text/", str "application/json", str "application/xml",
   str "application/javascript", str "application/x-www-form-urlencoded",
   str "application/graphql"]

/-- Embeds shouldCaptureBody: an empty content type is captured; otherwise
the lower-cased content type must contain one of the textual types. -/
def shouldCaptureBody (contentType : Str) : Bool :=
  if contentType == [] then true
  else textTypes.any (fun t => goContains (goToLower contentType) t)

/-- Embeds decompressResponse; the gzip codec of compress/gzip and the
brotli codec are abstracted as the parameters gunzip (failing exactly when
gzip reading fails) and unbrotli. A deflate or unknown encoding returns
the data unchanged, as in the source. -/
def decompressResponse (gunzip : List Nat → Except Unit (List Nat))
    (unbrotli : List Nat → List Nat) (data : List Nat) (encoding : Str) :
    Except Unit (List Nat) :=
  if encoding == [] then .ok data
  else
    let enc := goToLower encoding
    if goContains enc (str "gzip") then gunzip data
    else if goContains enc (str "br") then .ok (unbrotli data)
    else if goContains enc (str "deflate") then .ok data
    else .ok data

/-- Embeds captureRequest: the protocol comes from the TLS state and the
request body is buffered up to MaxBodySize and stored when non-empty. -/
def captureRequest (req : Request) (reqID : Nat) (startTime : Nat) :
    RequestDetails :=
  let protocol := if req.tls then str "https" else str "http"
  let body : List Nat :=
    match req.body with
    | some b =>
      let bodyBytes := b.take MaxBodySize
      if bodyBytes.length > 0 then bodyBytes else []
    | none => []
  { id := reqID, host := req.host, method := req.method, path := req.path,
    query := req.query, headers := req.headers, timestamp := startTime,
    protocol := protocol, body := body }

/-- Embeds captureResponse: the body is read (capped at MaxBodySize) only
when shouldCaptureBody accepts the content type; responseLength is the
pre-decompression byte count of what was read; responseBody holds the
decompressed bytes when decompression succeeds and stays empty otherwise;
the Body field of the record is left at its zero value. -/
def captureResponse (gunzip : List Nat → Except Unit (List Nat))
    (unbrotli : List Nat → List Nat) (req : Request) (resp : Response)
    (reqID : Nat) (startTime : Nat) (responseTime : Nat) : RequestDetails :=
  let protocol := if req.tls then str "https" else str "http"
  let captured : Nat × List Nat :=
    match resp.body with
    | some b =>
      if shouldCaptureBody (hdrGet resp.headers (str "Content-Type")) then
        let bodyBytes := b.take MaxBodySize
        match decompressResponse gunzip unbrotli bodyBytes
            (hdrGet resp.headers (str "Content-Encoding")) with
        | .ok d => (bodyBytes.length, d)
        | .error _ => (bodyBytes.length, [])
      else (0, [])
    | none => (0, [])
  { id := reqID, host := req.host, method := req.method, path := req.path,
    query := req.query, headers := req.headers, timestamp := startTime,
    protocol := protocol, responseLength := captured.1,
    status := resp.statusCode, responseTime := responseTime,
    responseHeaders := resp.headers, responseBody := captured.2 }

/-- Embeds the map stored in ctx.UserData by the request handler. -/
structure CtxData where
  startTime : Nat := 0
  reqID : Nat := 0

/-- Embeds the OnResponse handler installed by setupHandlers, as a function
from the upstream response (none when the upstream leg failed) and the
stored context to the response returned to goproxy together with the
capture record emitted, if any. -/
def onResponseHandler (gunzip : List Nat → Except Unit (List Nat))
    (unbrotli : List Nat → List Nat) (config : ProxyConfig) (req : Request)
    (resp : Option Response) (userData : Option CtxData) (now : Nat) :
    Option Response × Option RequestDetails :=
  match resp, userData with
  | some r, some d =>
    let details := captureResponse gunzip unbrotli req r d.reqID d.startTime
      (now - d.startTime)
    if shouldSave config details.host then (some r, some details)
    else (some r, none)
  | r, _ => (r, none)

/-- Embeds the circular-buffer fields of ProxyServer. -/
structure CacheState where
  reqCache : Nat → RequestDetails
  cacheHead : Nat
  cacheTail : Nat
  cacheCount : Nat

/-- Embeds the zero-valued buffer allocated by NewProxyServer. -/
def initCache : CacheState :=
  { reqCache := fun _ => {}, cacheHead := 0, cacheTail := 0, cacheCount := 0 }

/-- Embeds addToCache: write at the tail and advance it; grow the count
until the buffer is full, then advance the head, evicting the oldest
record. -/
def addToCache (s : CacheState) (req : RequestDetails) : CacheState :=
  let cache := fun j => if j = s.cacheTail then req else s.reqCache j
  let tail := (s.cacheTail + 1) % MaxCachedRequests
  if s.cacheCount < MaxCachedRequests then
    { reqCache := cache, cacheHead := s.cacheHead, cacheTail := tail,
      cacheCount := s.cacheCount + 1 }
  else
    { reqCache := cache, cacheHead := (s.cacheHead + 1) % MaxCachedRequests,
      cacheTail := tail, cacheCount := s.cacheCount }

/-- Embeds updateInCache: scan the live records from the head and replace
the first one whose id matches, wholesale; no-op when no id matches. -/
def updateInCache (s : CacheState) (resp : RequestDetails) : CacheState :=
  match (List.range s.cacheCount).find? (fun i =>
      (s.reqCache ((s.cacheHead + i) % MaxCachedRequests)).id == resp.id) with
  | some i =>
    { s with reqCache := fun j =>
        if j = (s.cacheHead + i) % MaxCachedRequests then resp
        else s.reqCache j }
  | none => s

/-- Embeds GetRequests: read the live records from the tail backwards, so
the newest record comes first. -/
def GetRequests (s : CacheState) : List RequestDetails :=
  (List.range s.cacheCount).reverse.map
    (fun i => s.reqCache ((s.cacheHead + i) % MaxCachedRequests))

/-- Structural invariant of the circular buffer: count within capacity,
head in range, and the tail sitting count slots past the head. -/
def CacheInv (s : CacheState) : Prop :=
  s.cacheCount ≤ MaxCachedRequests ∧ s.cacheHead < MaxCachedRequests ∧
    s.cacheTail = (s.cacheHead + s.cacheCount) % MaxCachedRequests

/-- The ring-eviction scenario: records with ids 1..n injected in order
into the fresh buffer. -/
def injectRecords (n : Nat) : CacheState :=
  (List.range' 1 n).foldl (fun s i => addToCache s { id := i }) initCache

/-- Embeds models.IPCEvent: a type tag and the record payload. -/
structure IPCEvent where
  type : Str
  data : List RequestDetails

/-- Embeds the batching fields of ProxyServer: the two buffers and whether
the flush timer is pending. -/
structure BatchState where
  reqBatch : List RequestDetails
  respBatch : List RequestDetails
  batchTimer : Bool

/-- Embeds flushBatches composed with the IPC server's handleBatchFlush
callback: stop the timer, drain both buffers, and broadcast one
proxy-request-batch event and one proxy-response-batch event, each omitted
when its batch is empty. -/
def flushBatches (s : BatchState) : BatchState × List IPCEvent :=
  let reqBatch := s.reqBatch
  let respBatch := s.respBatch
  let drained : BatchState :=
    { reqBatch := [], respBatch := [], batchTimer := false }
  let events : List IPCEvent :=
    (if reqBatch.length > 0 then
        [{ type := str "proxy-request-batch", data := reqBatch }] else [])
      ++ (if respBatch.length > 0 then
        [{ type := str "proxy-response-batch", data := respBatch }] else [])
  (drained, events)

/-- Embeds the cacheMaxSize field of CertificateManager (capacity 100). -/
def cacheMaxSize : Nat := 100

/-- Embeds the eviction loop of GenerateServerCertificate: delete entries
one at a time, stopping as soon as fewer than cacheMaxSize/2 remain. -/
def evictCache {Cert : Type} : List (Str × Cert) → List (Str × Cert)
  | [] => []
  | _ :: t => if t.length < cacheMaxSize / 2 then t else evictCache t

/-- Embeds the caching behaviour of GenerateServerCertificate: return a
cached leaf unchanged; otherwise, when the cache has reached cacheMaxSize,
run the eviction loop, then insert the freshly generated certificate. -/
def GenerateServerCertificate {Cert : Type} (certCache : List (Str × Cert))
    (domain : Str) (newCert : Cert) : List (Str × Cert) × Cert :=
  match certCache.find? (fun p => p.1 == domain) with
  | some p => (certCache, p.2)
  | none =>
    let cache1 :=
      if cacheMaxSize ≤ certCache.length then evictCache certCache
      else certCache
    ((domain, newCert) :: cache1, newCert)

/-- Embeds the lifecycle state of ProxyServer that Start, GetStatus and
UpdateConfig read. -/
structure ProxyState where
  isRunning : Bool
  config : ProxyConfig

/-- Embeds ProxyServer.Start: fail when already running; otherwise bind the
listener (bind success abstracted as a parameter) and mark running. -/
def ProxyStart (s : ProxyState) (bindOk : Bool) : Except String ProxyState :=
  if s.isRunning then .error "proxy server already running"
  else if bindOk then .ok { s with isRunning := true }
  else .error "failed to start proxy server"

/-- Embeds the JSON envelope written by sendSuccess and sendError. -/
structure ApiResponse where
  success : Bool
  error : Option String
  statusCode : Nat

/-- Embeds Server.handleStart: decode the requested port, write it into the
proxy configuration, then attempt ProxyServer.Start; a start error is
returned as success:false with HTTP 500. -/
def handleStart (s : ProxyState) (reqPort : Nat) (bindOk : Bool) :
    ProxyState × ApiResponse :=
  let s1 : ProxyState := { s with config := { s.config with port := reqPort } }
  match ProxyStart s1 bindOk with
  | .error msg => (s1, { success := false, error := some msg, statusCode := 500 })
  | .ok s2 => (s2, { success := true, error := none, statusCode := 200 })

/-- A wildcard pattern string ends with its own suffix part. -/
lemma wildcard_suffix_self (suffix : Str) :
    goHasSuffix ('*' :: '.' :: suffix) suffix = true := by
  unfold goHasSuffix
  exact List.isSuffixOf_iff_suffix.mpr
    ((List.suffix_cons '.' suffix).trans (List.suffix_cons '*' ('.' :: suffix)))

/-- C1 (amended): a wildcard pattern `*.suffix` matches a host exactly when
the host ends with the bare string suffix (no dot required) or equals the
suffix; and under saveOnlyInScope=true the outOfScope patterns are
evaluated first, any match dropping the record. -/
theorem matchesPattern_wildcard_semantics :
    (∀ host suffix : Str,
      matchesPattern host ('*' :: '.' :: suffix)
        = (goHasSuffix host suffix || host == suffix))
    ∧ (∀ (config : ProxyConfig) (host : Str), config.saveOnlyInScope = true →
        config.outOfScope.any (fun p => matchesPattern host p) = true →
        shouldSave config host = false) := by
  constructor
  · intro host suffix
    unfold matchesPattern
    cases hbe : (('*' :: '.' :: suffix : Str) == host) with
    | true =>
      have hh : host = '*' :: '.' :: suffix := (eq_of_beq hbe).symm
      subst hh
      simp [wildcard_suffix_self suffix]
    | false =>
      have hpre : goHasPrefix ('*' :: '.' :: suffix) ['*', '.'] = true := by
        simp [goHasPrefix, List.isPrefixOf]
      simp [hbe, hpre]
  · intro config host hsave hany
    unfold shouldSave
    simp [hsave, hany]

/-- C1 (counterexample): the host notexample.com matches the pattern
`*.example.com` in the code, while the claimed semantics (equal to the
suffix or ending in dot-suffix) reject it. -/
theorem matchesPattern_dotless_counterexample :
    matchesPattern (str "notexample.com") (str "*.example.com") = true
      ∧ specWildcardMatches (str "notexample.com") (str "example.com") = false := by
  decide

/-- A concrete inbound header map carrying all eight proxy-revealing names,
including a client-supplied Proxy-Authorization credential. -/
def sampleHeader : Header := fun k =>
  if k == str "X-Forwarded-For" then some (str "203.0.113.7")
  else if k == str "X-Forwarded-Host" then some (str "internal.host")
  else if k == str "X-Forwarded-Proto" then some (str "https")
  else if k == str "X-Real-IP" then some (str "203.0.113.7")
  else if k == str "Via" then some (str "1.1 proxy")
  else if k == str "Forwarded" then some (str "for=203.0.113.7")
  else if k == str "Proxy-Connection" then some (str "keep-alive")
  else if k == str "Proxy-Authorization" then some (str "Basic c2VjcmV0")
  else none

/-- C2: sanitizeHeaders deletes the seven names of its list but leaves a
client-supplied Proxy-Authorization header in place, so at this concrete
request the credential survives sanitization and goes upstream. -/
theorem sanitizeHeaders_keeps_proxyAuthorization :
    sanitizeHeaders sampleHeader (str "Proxy-Authorization")
        = some (str "Basic c2VjcmV0")
      ∧ sanitizeHeaders sampleHeader (str "X-Forwarded-For") = none
      ∧ sanitizeHeaders sampleHeader (str "X-Forwarded-Host") = none
      ∧ sanitizeHeaders sampleHeader (str "X-Forwarded-Proto") = none
      ∧ sanitizeHeaders sampleHeader (str "X-Real-IP") = none
      ∧ sanitizeHeaders sampleHeader (str "Via") = none
      ∧ sanitizeHeaders sampleHeader (str "Forwarded") = none
      ∧ sanitizeHeaders sampleHeader (str "Proxy-Connection") = none := by
  decide

/-- C3 (counterexample): at a concrete exchange whose upstream leg failed
(goproxy hands the handler a nil response), the OnResponse handler emits
no capture record at all; no completed record with status 0 and an error
category is synthesized. -/
theorem onResponseHandler_upstream_failure_counterexample :
    onResponseHandler (fun b => .ok b) id { saveOnlyInScope := false }
        { host := str "example.com" } none (some { startTime := 3, reqID := 7 }) 9
      = (none, none) := rfl

/-- C3 (amended): whenever the upstream leg fails, the OnResponse handler
returns the nil response unchanged and emits nothing; no capture record is
synthesized for the failed exchange. -/
theorem onResponseHandler_upstream_failure
    (gunzip : List Nat → Except Unit (List Nat)) (unbrotli : List Nat → List Nat)
    (config : ProxyConfig) (req : Request) (userData : Option CtxData) (now : Nat) :
    onResponseHandler gunzip unbrotli config req none userData now = (none, none) := by
  cases userData <;> rfl

/-- A proxy already running on port 8080. -/
def runningState : ProxyState := { isRunning := true, config := { port := 8080 } }

/-- C5 (counterexample): starting while already running does fail with
success false and the expected error, yet the configured port observable
through the config changes from 8080 to the requested 9090. -/
theorem handleStart_port_mutation_counterexample :
    (handleStart runningState 9090 true).2.success = false
      ∧ (handleStart runningState 9090 true).2.error
          = some "proxy server already running"
      ∧ (handleStart runningState 9090 true).1.config.port = 9090
      ∧ (handleStart runningState 9090 true).1.config.port ≠ 8080 := by
  refine ⟨rfl, rfl, rfl, ?_⟩
  decide

/-- C5 (amended): a start request while the proxy is already running fails
with success false, HTTP 500 and error "proxy server already running"; the
running flag and the rest of the configuration are preserved, but the
configured port has been overwritten with the requested port before the
failing start attempt. -/
theorem handleStart_already_running (s : ProxyState) (reqPort : Nat)
    (bindOk : Bool) (h : s.isRunning = true) :
    (handleStart s reqPort bindOk).2.success = false
      ∧ (handleStart s reqPort bindOk).2.error
          = some "proxy server already running"
      ∧ (handleStart s reqPort bindOk).2.statusCode = 500
      ∧ (handleStart s reqPort bindOk).1.isRunning = true
      ∧ (handleStart s reqPort bindOk).1.config
          = { s.config with port := reqPort } := by
  unfold handleStart ProxyStart
  simp [h]

/-- C5 (witness): the amended start-while-running behaviour at the concrete
running state and requested port 9090. -/
theorem handleStart_already_running_witness :
    (handleStart runningState 9090 true).2.success = false
      ∧ (handleStart runningState 9090 true).2.error
          = some "proxy server already running"
      ∧ (handleStart runningState 9090 true).2.statusCode = 500
      ∧ (handleStart runningState 9090 true).1.isRunning = true
      ∧ (handleStart runningState 9090 true).1.config
          = { runningState.config with port := 9090 } :=
  handleStart_already_running runningState 9090 true rfl

/-- C7: every flush drains both batch buffers, cancels the pending flush
timer, and emits at most two events, a proxy-request-batch carrying the
drained request batch and a proxy-response-batch carrying the drained
response batch, each omitted exactly when its batch is empty; every
emitted event carries a non-empty batch. -/
theorem flushBatches_drains_and_emits (s : BatchState) :
    (flushBatches s).1.reqBatch = []
      ∧ (flushBatches s).1.respBatch = []
      ∧ (flushBatches s).1.batchTimer = false
      ∧ (flushBatches s).2.length ≤ 2
      ∧ (s.reqBatch = [] →
          (flushBatches s).2
            = if s.respBatch.length > 0 then
                [{ type := str "proxy-response-batch", data := s.respBatch }]
              else [])
      ∧ (s.respBatch = [] →
          (flushBatches s).2
            = if s.reqBatch.length > 0 then
                [{ type := str "proxy-request-batch", data := s.reqBatch }]
              else [])
      ∧ (s.reqBatch ≠ [] → s.respBatch ≠ [] →
          (flushBatches s).2
            = [{ type := str "proxy-request-batch", data := s.reqBatch },
               { type := str "proxy-response-batch", data := s.respBatch }])
      ∧ (∀ e ∈ (flushBatches s).2, e.data ≠ []) := by
  obtain ⟨rb, pb, t⟩ := s
  refine ⟨rfl, rfl, rfl, ?_, ?_, ?_, ?_, ?_⟩
  · cases rb <;> cases pb <;> simp [flushBatches]
  · intro hr
    subst hr
    simp [flushBatches]
  · intro hp
    subst hp
    simp [flushBatches]
  · intro hr hp
    cases rb with
    | nil => exact absurd rfl hr
    | cons a as =>
      cases pb with
      | nil => exact absurd rfl hp
      | cons b bs => simp [flushBatches]
  · intro e he
    cases rb <;> cases pb <;> simp [flushBatches] at he <;>
      rcases he with h | h <;> simp_all

/-- A concrete non-textual upstream response: three bytes of a PNG body. -/
def pngResponse : Response :=
  { statusCode := 200,
    headers := fun k =>
      if k == str "Content-Type" then some (str "image/png") else none,
    body := some [137, 80, 71] }

/-- C4 (counterexample): for this non-textual 3-byte response the captured
record has responseLength 0, not the number of body bytes read from
upstream, and an empty responseBody. -/
theorem captureResponse_nontextual_counterexample :
    (captureResponse (fun b => .ok b) id {} pngResponse 1 0 0).responseLength = 0
      ∧ (captureResponse (fun b => .ok b) id {} pngResponse 1 0 0).responseLength ≠ 3
      ∧ (captureResponse (fun b => .ok b) id {} pngResponse 1 0 0).responseBody = [] := by
  decide

/-- C4 (amended): for every response whose content type the heuristic
classifies non-textual, the OnResponse handler forwards the response
unchanged, but the capture path never reads the body: the record's
responseBody is empty and its responseLength is 0 rather than the body's
byte count. -/
theorem captureResponse_nontextual
    (gunzip : List Nat → Except Unit (List Nat)) (unbrotli : List Nat → List Nat)
    (config : ProxyConfig) (req : Request) (resp : Response) (d : CtxData)
    (reqID startTime responseTime now : Nat)
    (hct : shouldCaptureBody (hdrGet resp.headers (str "Content-Type")) = false) :
    (captureResponse gunzip unbrotli req resp reqID startTime responseTime).responseLength = 0
      ∧ (captureResponse gunzip unbrotli req resp reqID startTime responseTime).responseBody = []
      ∧ (onResponseHandler gunzip unbrotli config req (some resp) (some d) now).1
          = some resp := by
  refine ⟨?_, ?_, ?_⟩
  · unfold captureResponse
    cases hb : resp.body <;> simp [hb, hct]
  · unfold captureResponse
    cases hb : resp.body <;> simp [hb, hct]
  · unfold onResponseHandler
    dsimp only
    split <;> rfl

/-- C4 (witness): the amended non-textual behaviour at the concrete PNG
response. -/
theorem captureResponse_nontextual_witness :
    (captureResponse (fun b => .ok b) id {} pngResponse 5 0 0).responseLength = 0
      ∧ (captureResponse (fun b => .ok b) id {} pngResponse 5 0 0).responseBody = []
      ∧ (onResponseHandler (fun b => .ok b) id {} {} (some pngResponse) (some {}) 0).1
          = some pngResponse :=
  captureResponse_nontextual (fun b => .ok b) id {} {} pngResponse {} 5 0 0 0 (by decide)

/-- C8: for a textual response with Content-Encoding gzip whose compressed
body fits the cap, the captured record's responseLength is the
pre-decompression byte count read from upstream and its responseBody is
the gzip-decompressed output. -/
theorem captureResponse_gzip_semantics
    (gunzip : List Nat → Except Unit (List Nat)) (unbrotli : List Nat → List Nat)
    (req : Request) (resp : Response) (reqID startTime responseTime : Nat)
    (body out : List Nat)
    (hct : shouldCaptureBody (hdrGet resp.headers (str "Content-Type")) = true)
    (hce : hdrGet resp.headers (str "Content-Encoding") = str "gzip")
    (hbody : resp.body = some body) (hlen : body.length ≤ MaxBodySize)
    (hgz : gunzip body = .ok out) :
    (captureResponse gunzip unbrotli req resp reqID startTime responseTime).responseLength
        = body.length
      ∧ (captureResponse gunzip unbrotli req resp reqID startTime responseTime).responseBody
        = out := by
  have htake : body.take MaxBodySize = body := List.take_of_length_le hlen
  have hne : ((str "gzip" : Str) == ([] : Str)) = false := by decide
  have hgc : goContains (goToLower (str "gzip")) (str "gzip") = true := by decide
  unfold captureResponse
  simp [hbody, hct, hce, htake, decompressResponse, hne, hgc, hgz]

/-- A concrete 26-byte compressed body for the gzip scenario. -/
def gzBody : List Nat := List.range 26

/-- The decompressed JSON text, as the bytes of the seven characters of
the object literal with key a and value 1. -/
def gzJson : List Nat := [123, 34, 97, 34, 58, 49, 125]

/-- A concrete gzip decoder defined at the sample body. -/
def gzSample (b : List Nat) : Except Unit (List Nat) :=
  if b == gzBody then .ok gzJson else .error ()

/-- A concrete gzipped JSON upstream response. -/
def gzResponse : Response :=
  { statusCode := 200,
    headers := fun k =>
      if k == str "Content-Type" then some (str "application/json")
      else if k == str "Content-Encoding" then some (str "gzip") else none,
    body := some gzBody }

/-- C8 (witness): the gzip scenario at a concrete 26-byte compressed body
decompressing to the JSON text: responseLength 26, responseBody the JSON
bytes. -/
theorem captureResponse_gzip_witness :
    (captureResponse gzSample id {} gzResponse 1 0 0).responseLength = 26
      ∧ (captureResponse gzSample id {} gzResponse 1 0 0).responseBody = gzJson := by
  have h := captureResponse_gzip_semantics gzSample id {} gzResponse 1 0 0 gzBody gzJson
    (by decide) (by decide) rfl (by decide) rfl
  simpa [gzBody] using h

/-- The eviction loop always leaves fewer than half the capacity. -/
lemma evictCache_length_lt {Cert : Type} :
    ∀ l : List (Str × Cert), (evictCache l).length < cacheMaxSize / 2
  | [] => by simp [evictCache, cacheMaxSize]
  | _ :: t => by
    unfold evictCache
    split
    · omega
    · exact evictCache_length_lt t

/-- C9: the leaf-certificate cache never exceeds its capacity of 100: the
eviction loop always leaves fewer than 50 entries; an issuance for an
uncached domain that finds the cache at capacity runs the eviction loop
before inserting the fresh certificate; and every issuance preserves the
size bound. -/
theorem generateServerCertificate_capacity :
    (∀ (Cert : Type) (l : List (Str × Cert)),
      (evictCache l).length < cacheMaxSize / 2)
    ∧ (∀ (Cert : Type) (cache : List (Str × Cert)) (domain : Str) (c : Cert),
        cache.find? (fun p => p.1 == domain) = none →
        cacheMaxSize ≤ cache.length →
        (GenerateServerCertificate cache domain c).1
          = (domain, c) :: evictCache cache)
    ∧ (∀ (Cert : Type) (cache : List (Str × Cert)) (domain : Str) (c : Cert),
        cache.length ≤ cacheMaxSize →
        ((GenerateServerCertificate cache domain c).1).length ≤ cacheMaxSize) := by
  refine ⟨fun Cert l => evictCache_length_lt l, ?_, ?_⟩
  · intro Cert cache domain c hfind hfull
    unfold GenerateServerCertificate
    simp [hfind, hfull]
  · intro Cert cache domain c hle
    unfold GenerateServerCertificate
    cases hfind : cache.find? (fun p => p.1 == domain) with
    | some p => simpa using hle
    | none =>
      by_cases hfull : cacheMaxSize ≤ cache.length
      · have h : (evictCache cache).length < cacheMaxSize / 2 :=
          evictCache_length_lt cache
        simp only [hfull, if_true]
        simp only [List.length_cons]
        have : cacheMaxSize / 2 ≤ cacheMaxSize := Nat.div_le_self _ _
        omega
      · simp only [hfull, if_false]
        simp only [List.length_cons]
        omega

/-- C10: a record built by captureResponse always leaves the request-body
field at its Go zero value, and updateInCache replaces the first stored
record with a matching id wholesale by that record; hence after a response
is correlated, the stored record carries no request body even when the
request-time record did. -/
theorem updateInCache_wholesale_drop_body :
    (∀ (gunzip : List Nat → Except Unit (List Nat)) (unbrotli : List Nat → List Nat)
        (req : Request) (resp : Response) (reqID startTime responseTime : Nat),
      (captureResponse gunzip unbrotli req resp reqID startTime responseTime).body = [])
    ∧ (∀ (s : CacheState) (d : RequestDetails) (i : Nat),
        (List.range s.cacheCount).find? (fun j =>
            (s.reqCache ((s.cacheHead + j) % MaxCachedRequests)).id == d.id) = some i →
        (updateInCache s d).reqCache ((s.cacheHead + i) % MaxCachedRequests) = d) := by
  constructor
  · intro gunzip unbrotli req resp reqID startTime responseTime
    rfl
  · intro s d i hfind
    unfold updateInCache
    rw [hfind]
    simp

/-- Rewrites the capacity constant in successor form. -/
lemma maxCached_succ : MaxCachedRequests = 999 + 1 := by
  norm_num [MaxCachedRequests]

/-- Truncating after consing onto an already-truncated list equals
truncating the cons of the full list. -/
lemma take_cons_take {α : Type} (x : α) (l : List α) (m : Nat) :
    (x :: l.take m).take m = (x :: l).take m := by
  cases m with
  | zero => rfl
  | succ m' =>
    rw [List.take_succ_cons, List.take_succ_cons, List.take_take]
    congr 1
    have hmin : m' ⊓ (m' + 1) = m' := by omega
    rw [hmin]

/-- One addToCache step: the new snapshot is the appended record consed
onto the old snapshot, truncated to capacity, and the buffer invariant is
preserved. -/
lemma addToCache_step (s : CacheState) (r : RequestDetails) (hinv : CacheInv s) :
    GetRequests (addToCache s r)
        = (r :: GetRequests s).take MaxCachedRequests
      ∧ CacheInv (addToCache s r) := by
  obtain ⟨hcount, hhead, htail⟩ := hinv
  by_cases hfull : s.cacheCount < MaxCachedRequests
  · constructor
    · have hlen : (r :: GetRequests s).length ≤ MaxCachedRequests := by
        simp only [List.length_cons, GetRequests, List.length_map,
          List.length_reverse, List.length_range]
        omega
      rw [List.take_of_length_le hlen]
      unfold addToCache
      rw [if_pos hfull]
      unfold GetRequests
      dsimp only
      rw [List.range_succ, List.reverse_append]
      simp only [List.reverse_cons, List.reverse_nil, List.nil_append,
        List.singleton_append, List.map_cons]
      congr 1
      · rw [htail]
        simp
      · apply List.map_congr_left
        intro i hi
        rw [List.mem_reverse, List.mem_range] at hi
        have hne : (s.cacheHead + i) % MaxCachedRequests ≠ s.cacheTail := by
          rw [htail]
          simp only [MaxCachedRequests] at hfull ⊢
          omega
        rw [if_neg hne]
    · unfold addToCache
      rw [if_pos hfull]
      unfold CacheInv
      dsimp only
      refine ⟨by omega, hhead, ?_⟩
      rw [htail]
      simp only [MaxCachedRequests]
      omega
  · have hcM : s.cacheCount = MaxCachedRequests := by omega
    have htailhead : s.cacheTail = s.cacheHead := by
      rw [htail, hcM]
      simp only [MaxCachedRequests] at hhead ⊢
      omega
    constructor
    · unfold addToCache
      rw [if_neg hfull]
      unfold GetRequests
      dsimp only
      rw [hcM]
      have hstep1 : ∀ i ∈ (List.range MaxCachedRequests).reverse,
          (if ((s.cacheHead + 1) % MaxCachedRequests + i) % MaxCachedRequests
              = s.cacheTail then r
           else s.reqCache
             (((s.cacheHead + 1) % MaxCachedRequests + i) % MaxCachedRequests))
            = (if (s.cacheHead + 1 + i) % MaxCachedRequests = s.cacheTail then r
               else s.reqCache ((s.cacheHead + 1 + i) % MaxCachedRequests)) := by
        intro i hi
        have hmod : ((s.cacheHead + 1) % MaxCachedRequests + i) % MaxCachedRequests
            = (s.cacheHead + 1 + i) % MaxCachedRequests := by
          simp only [MaxCachedRequests]
          omega
        rw [hmod]
      rw [List.map_congr_left hstep1]
      trans (r :: (List.range' 1 999).reverse.map
        (fun i => s.reqCache ((s.cacheHead + i) % MaxCachedRequests)))
      · simp only [maxCached_succ]
        rw [List.range_succ, List.reverse_append]
        simp only [List.reverse_cons, List.reverse_nil, List.nil_append,
          List.singleton_append, List.map_cons]
        simp only [maxCached_succ] at hhead
        congr 1
        · have hidx : (s.cacheHead + 1 + 999) % (999 + 1) = s.cacheHead := by
            omega
          rw [hidx, if_pos htailhead.symm]
        · rw [List.range'_eq_map_range, ← List.map_reverse, List.map_map]
          apply List.map_congr_left
          intro i hi
          rw [List.mem_reverse, List.mem_range] at hi
          have hne : (s.cacheHead + 1 + i) % (999 + 1) ≠ s.cacheTail := by
            rw [htailhead]
            omega
          rw [if_neg hne]
          show s.reqCache ((s.cacheHead + 1 + i) % (999 + 1))
            = s.reqCache ((s.cacheHead + (1 + i)) % (999 + 1))
          have : s.cacheHead + 1 + i = s.cacheHead + (1 + i) := by omega
          rw [this]
      · simp only [maxCached_succ]
        rw [List.take_succ_cons]
        congr 1
    · unfold addToCache
      rw [if_neg hfull]
      unfold CacheInv
      dsimp only
      rw [hcM, htail, hcM]
      simp only [MaxCachedRequests] at hhead ⊢
      constructor
      · omega
      constructor
      · omega
      · omega

/-- The scenario fold keeps the buffer invariant, and its snapshot is the
records with the injected ids, newest first, truncated to capacity. -/
lemma injectRecords_spec (n : Nat) :
    CacheInv (injectRecords n)
      ∧ GetRequests (injectRecords n)
        = ((List.range' 1 n).reverse.map
            (fun i => ({ id := i } : RequestDetails))).take MaxCachedRequests := by
  induction n with
  | zero =>
    constructor
    · exact ⟨by decide, by decide, by decide⟩
    · rfl
  | succ k ih =>
    obtain ⟨ihInv, ihEq⟩ := ih
    have hstep : injectRecords (k + 1)
        = addToCache (injectRecords k) { id := k + 1 } := by
      unfold injectRecords
      rw [List.range'_concat, List.foldl_append]
      simp [Nat.add_comm]
    obtain ⟨stepEq, stepInv⟩ := addToCache_step (injectRecords k)
      { id := k + 1 } ihInv
    rw [hstep]
    refine ⟨stepInv, ?_⟩
    rw [stepEq, ihEq]
    rw [List.range'_concat, List.reverse_append]
    simp only [List.reverse_cons, List.reverse_nil, List.nil_append,
      List.singleton_append, List.map_cons, one_mul]
    rw [take_cons_take]
    have hc : 1 + k = k + 1 := by omega
    rw [hc]

/-- C6: the capture store is a circular buffer of capacity 1000: an append
conses the new record onto the newest-first snapshot and truncates to
capacity, so a full buffer evicts exactly the oldest record; and after
injecting records with ids 1..1500 in order, the snapshot has length 1000,
its first entry id 1500 and its last entry id 501. -/
theorem addToCache_ring_eviction :
    (∀ (s : CacheState) (r : RequestDetails), CacheInv s →
      GetRequests (addToCache s r)
        = (r :: GetRequests s).take MaxCachedRequests)
    ∧ (GetRequests (injectRecords 1500)).length = 1000
    ∧ ((GetRequests (injectRecords 1500)).map (fun d => d.id)).head? = some 1500
    ∧ ((GetRequests (injectRecords 1500)).map (fun d => d.id)).getLast?
        = some 501 := by
  have hids : (GetRequests (injectRecords 1500)).map (fun d => d.id)
      = (List.range' 501 1000).reverse := by
    rw [(injectRecords_spec 1500).2]
    rw [← List.map_take, List.map_map]
    have hcomp : ((fun d => d.id)
        ∘ (fun i => ({ id := i } : RequestDetails))) = fun i => i := rfl
    rw [hcomp]
    have hsplit : List.range' 1 1500 = List.range' 1 500 ++ List.range' 501 1000 := by
      have h := List.range'_append 1 500 1000 1
      norm_num at h
      exact h.symm
    rw [List.map_id', hsplit, List.reverse_append]
    rw [maxCached_succ]
    rw [List.take_left' (by simp)]
  have hlen := congrArg List.length hids
  simp only [List.length_map, List.length_reverse, List.length_range'] at hlen
  refine ⟨fun s r h => (addToCache_step s r h).1, hlen, ?_, ?_⟩
  · rw [hids, List.head?_reverse]
    have hconc : List.range' 501 1000 = List.range' 501 999 ++ [501 + 1 * 999] :=
      List.range'_concat 501 999
    rw [hconc, List.getLast?_concat]
  · rw [hids, List.getLast?_reverse]
    have h1000 : (1000 : Nat) = 999 + 1 := by norm_num
    rw [h1000, List.range'_succ]
    rfl
